import Mathlib

/-!
Verification of the grievance-extraction pipeline of the Grievance-Portal
repository: the output normalizer in src/services/llm-models.ts
(parsePlainTextOutput and the parse-and-validate section of callFineTunedLLM)
and the thin service clients in src/services/whisper-local.ts and the local
grievance service (transcribeAudioLocal, translateToEnglishLocal,
categorizeGrievanceLocal), plus the translation-fallback logic of
handleTranscribe in src/components/ComplaintForm.tsx.

The embedding works over explicit character lists so that every definition
is executable by kernel reduction. JavaScript string primitives used by the
source (split, trim, toLowerCase, includes, substring, truthiness of
strings, the or-else idiom on strings) are modelled one-for-one for the
ASCII inputs the pipeline handles.
-/

namespace Grievance

/-- Whitespace recognised by the JavaScript trim operation, restricted to
the ASCII whitespace characters that occur in pipeline inputs. -/
def isSpaceChar (c : Char) : Bool :=
  c = ' ' || c = '\t' || c = '\n' || c = '\r' || c = '\x0b' || c = '\x0c'

/-- Model of the JavaScript trim operation on a character list: drop
whitespace from both ends. -/
def trimChars (cs : List Char) : List Char :=
  ((cs.dropWhile isSpaceChar).reverse.dropWhile isSpaceChar).reverse

/-- Model of the JavaScript split operation with a one-character separator.
Like split, it always returns a non-empty list of fragments and keeps
empty fragments. -/
def splitOnChar (sep : Char) : List Char → List (List Char)
  | [] => [[]]
  | c :: rest =>
    if c = sep then [] :: splitOnChar sep rest
    else
      match splitOnChar sep rest with
      | [] => [[c]]
      | h :: t => (c :: h) :: t

/-- Model of the JavaScript join operation with a one-character separator. -/
def joinWithChar (sep : Char) : List (List Char) → List Char
  | [] => []
  | [x] => x
  | x :: xs => x ++ sep :: joinWithChar sep xs

/-- ASCII lower-casing of one character, as toLowerCase acts on the ASCII
range. -/
def toLowerChar (c : Char) : Char :=
  if 'A' ≤ c ∧ c ≤ 'Z' then Char.ofNat (c.toNat + 32) else c

/-- ASCII lower-casing of a character list. -/
def lowerChars (cs : List Char) : List Char := cs.map toLowerChar

/-- Whether the first list is a prefix of the second, as a boolean. -/
def isPrefixList : List Char → List Char → Bool
  | [], _ => true
  | _ :: _, [] => false
  | a :: as, b :: bs => a = b && isPrefixList as bs

/-- Model of the JavaScript includes operation: substring containment. -/
def includesChars : List Char → List Char → Bool
  | hay, needle =>
    match hay with
    | [] => needle.isEmpty
    | _ :: rest => isPrefixList needle hay || includesChars rest needle

/-- String wrapper for trimChars. -/
def jsTrim (s : String) : String := ⟨trimChars s.data⟩

/-- String wrapper for lowerChars. -/
def jsToLower (s : String) : String := ⟨lowerChars s.data⟩

/-- String wrapper for includesChars. -/
def jsIncludes (s sub : String) : Bool := includesChars s.data sub.data

/-- Model of the JavaScript substring operation from index zero: take the
first n characters. -/
def jsSubstringTo (s : String) (n : Nat) : String := ⟨s.data.take n⟩

/-- Model of the JavaScript or-else idiom on strings: the first operand if
it is truthy (non-empty), otherwise the second. -/
def jsOr (a b : String) : String := if a = "" then b else a

/-- The five-field record produced by parsePlainTextOutput in
src/services/llm-models.ts. All fields are plain strings, as the parser
always assigns strings. -/
structure LLMOutput where
  department : String
  location : String
  severity : String
  description : String
  summary : String
deriving DecidableEq, Repr

/-- The three department labels of the LLMOutput interface in
src/services/llm-models.ts. -/
def validDepartments : List String :=
  ["roads_and_traffic", "water_supply", "solid_waste_management"]

/-- The four severity labels of the LLMOutput interface in
src/services/llm-models.ts. -/
def validSeverities : List String := ["low", "medium", "high", "critical"]

/-- The initial record of parsePlainTextOutput before any line is
processed: the defaults assigned to the output object literal. -/
def initialOutput : LLMOutput :=
  { department := "roads_and_traffic", location := "", severity := "medium",
    description := "", summary := "" }

/-- The key-dispatch chain in the loop body of parsePlainTextOutput:
given the lower-cased trimmed key and the non-empty trimmed value of one
line, update the record. Mirrors the if-else chain of the source. -/
def applyKeyValue (o : LLMOutput) (lowerKey value : String) : LLMOutput :=
  if jsIncludes lowerKey "department" then
    let dept := jsToLower value
    if jsIncludes dept "road" || jsIncludes dept "traffic" then
      { o with department := "roads_and_traffic" }
    else if jsIncludes dept "water" then
      { o with department := "water_supply" }
    else if jsIncludes dept "waste" || jsIncludes dept "garbage" then
      { o with department := "solid_waste_management" }
    else o
  else if jsIncludes lowerKey "severity" then
    let sev := jsToLower value
    if sev ∈ validSeverities then { o with severity := sev } else o
  else if jsIncludes lowerKey "location" then { o with location := value }
  else if jsIncludes lowerKey "description" then { o with description := value }
  else if jsIncludes lowerKey "summary" then { o with summary := value }
  else o

/-- One iteration of the line loop of parsePlainTextOutput: split the line
on the first colon, rejoin the remainder, trim; skip the line if the value
is empty, otherwise dispatch on the key. -/
def processLine (o : LLMOutput) (line : List Char) : LLMOutput :=
  match splitOnChar ':' line with
  | [] => o
  | key :: valueParts =>
    let value := trimChars (joinWithChar ':' valueParts)
    if value = [] then o
    else applyKeyValue o ⟨trimChars (lowerChars key)⟩ ⟨value⟩

/-- The line preprocessing of parsePlainTextOutput: split the text on
newlines, trim each line, drop empty lines. -/
def linesOf (text : String) : List (List Char) :=
  ((splitOnChar '\n' text.data).map trimChars).filter (fun l => !l.isEmpty)

/-- The description default of parsePlainTextOutput: an empty description
is replaced by the summary, or by the fixed placeholder when the summary is
empty too. -/
def fixDescription (o : LLMOutput) : LLMOutput :=
  if o.description = "" then
    { o with description := jsOr o.summary "No description provided" }
  else o

/-- The summary default of parsePlainTextOutput: an empty summary is
replaced by the first eighty characters of the description, or by the fixed
placeholder when that is empty. -/
def fixSummary (o : LLMOutput) : LLMOutput :=
  if o.summary = "" then
    { o with summary := jsOr (jsSubstringTo o.description 80) "No summary provided" }
  else o

/-- parsePlainTextOutput from src/services/llm-models.ts: line-oriented
parsing of the model output, followed by the description and summary
defaults. -/
def parsePlainTextOutput (text : String) : LLMOutput :=
  fixSummary (fixDescription ((linesOf text).foldl processLine initialOutput))

deriving instance DecidableEq for Except

/-- The candidate record inside callFineTunedLLM before validation. A field
parsed from an embedded JSON object may be absent, which JavaScript sees as
undefined; none models that state. parsePlainTextOutput always yields all
five fields, so its candidates have every field present. -/
structure LLMCandidate where
  department : Option String
  location : Option String
  severity : Option String
  description : Option String
  summary : Option String
deriving DecidableEq, Repr

/-- View of a parsePlainTextOutput record as a candidate: every field is
present. -/
def candidateOfOutput (o : LLMOutput) : LLMCandidate :=
  { department := some o.department, location := some o.location,
    severity := some o.severity, description := some o.description,
    summary := some o.summary }

/-- JSON whitespace, as accepted between tokens by the JSON grammar. -/
def isJsonWs (c : Char) : Bool :=
  c = ' ' || c = '\t' || c = '\n' || c = '\r'

/-- Drop leading JSON whitespace. -/
def skipWs (cs : List Char) : List Char := cs.dropWhile isJsonWs

/-- JSON string escapes: the one-character escape sequences. -/
def escapeChar (c : Char) : Option Char :=
  if c = '"' then some '"'
  else if c = '\\' then some '\\'
  else if c = '/' then some '/'
  else if c = 'n' then some '\n'
  else if c = 't' then some '\t'
  else if c = 'r' then some '\r'
  else if c = 'b' then some '\x08'
  else if c = 'f' then some '\x0c'
  else none

/-- Parse the body of a JSON string literal, after its opening quote, up to
and including its closing quote. Returns the decoded characters and the
remaining input. -/
def parseStringBody : List Char → Option (List Char × List Char)
  | [] => none
  | c :: rest =>
    if c = '"' then some ([], rest)
    else if c = '\\' then
      match rest with
      | [] => none
      | e :: rest2 =>
        match escapeChar e with
        | none => none
        | some ec =>
          match parseStringBody rest2 with
          | none => none
          | some (s, r) => some (ec :: s, r)
    else
      match parseStringBody rest with
      | none => none
      | some (s, r) => some (c :: s, r)

/-- Parse a non-empty comma-separated member list of a JSON object whose
values are strings, starting at the first key and consuming the closing
brace. Returns the members in textual order and the input after the brace.
The fuel argument only bounds the number of members; each member consumes
at least one character, so any fuel above the input length is enough. -/
def parseMembers : Nat → List Char → Option (List (String × String) × List Char)
  | 0, _ => none
  | n + 1, cs =>
    match cs with
    | [] => none
    | c :: r0 =>
      if c = '"' then
        match parseStringBody r0 with
        | none => none
        | some (k, r1) =>
          match skipWs r1 with
          | [] => none
          | c1 :: r2 =>
            if c1 = ':' then
              match skipWs r2 with
              | [] => none
              | c2 :: r3 =>
                if c2 = '"' then
                  match parseStringBody r3 with
                  | none => none
                  | some (v, r4) =>
                    match skipWs r4 with
                    | [] => none
                    | c3 :: r5 =>
                      if c3 = ',' then
                        match parseMembers n (skipWs r5) with
                        | none => none
                        | some (kvs, rest) => some ((⟨k⟩, ⟨v⟩) :: kvs, rest)
                      else if c3 = '\x7d' then some ([(⟨k⟩, ⟨v⟩)], r5)
                      else none
                else none
            else none
      else none

/-- Parse the inside of a JSON object after its opening brace, requiring
that nothing but whitespace follows the closing brace, as JSON.parse does
for a complete document. -/
def parseObjBody (r : List Char) : Option (List (String × String)) :=
  match skipWs r with
  | [] => none
  | c :: r2 =>
    if c = '\x7d' then
      if (skipWs r2).isEmpty then some [] else none
    else
      match parseMembers ((c :: r2).length + 5) (c :: r2) with
      | none => none
      | some (kvs, rest) => if (skipWs rest).isEmpty then some kvs else none

/-- Model of JSON.parse restricted to objects whose values are all strings,
the shape the categorization prompt mandates (keep all values as strings).
A document of any other shape is rejected, which in callFineTunedLLM sends
control to the plain-text fallback. -/
def parseJsonObject (s : String) : Option (List (String × String)) :=
  match skipWs s.data with
  | [] => none
  | c :: r => if c = '\x7b' then parseObjBody r else none

/-- Last-wins key lookup in a parsed object, matching how JSON.parse keeps
the final occurrence of a duplicated key and how a missing key reads as
undefined. -/
def lookupLast (kvs : List (String × String)) (k : String) : Option String :=
  (kvs.reverse.find? (fun kv => kv.1 == k)).map (fun kv => kv.2)

/-- The candidate read off a parsed JSON object: each of the five fields is
taken from the object if present, with no validation of its content. -/
def candidateOfObj (kvs : List (String × String)) : LLMCandidate :=
  { department := lookupLast kvs "department",
    location := lookupLast kvs "location",
    severity := lookupLast kvs "severity",
    description := lookupLast kvs "description",
    summary := lookupLast kvs "summary" }

/-- The span the regex of callFineTunedLLM extracts from the generated
text: the regex is greedy, so on a match it runs from the first opening
brace to the last closing brace of the whole text, and it fails when no
closing brace follows the first opening brace. -/
def spanToLastClose (cs : List Char) : List Char :=
  ((cs.reverse.dropWhile (fun c => !(c = '\x7d'))).reverse)

/-- The embedded-JSON span extraction of callFineTunedLLM. -/
def extractJsonSpan (s : String) : Option String :=
  let fromOpen := s.data.dropWhile (fun c => !(c = '\x7b'))
  let span := spanToLastClose fromOpen
  if span.isEmpty then none else some ⟨span⟩

/-- JavaScript truthiness of a possibly-absent string field: undefined and
the empty string are falsy. -/
def truthyOpt : Option String → Bool
  | none => false
  | some s => !(s = "")

/-- The validation block at the end of callFineTunedLLM: the parsed output
is rejected exactly when department, severity, description or summary is
absent or empty. Neither enum membership nor the location field is
checked. -/
def validateOutput (c : LLMCandidate) : Except String LLMCandidate :=
  if truthyOpt c.department && truthyOpt c.severity &&
      truthyOpt c.description && truthyOpt c.summary then
    Except.ok c
  else
    Except.error "Invalid LLM output structure - missing required fields"

set_option linter.unusedVariables false in
/-- The candidate produced by the parsing section of callFineTunedLLM on a
generated text: the embedded JSON object when the extracted span parses,
otherwise the plain-text parse of the whole text (both when no span exists
and when JSON parsing fails). The first parameter is the user input sent
to categorization; the source has it in scope but the parsing logic never
reads it. -/
def parsedCandidate (userInput generatedText : String) : LLMCandidate :=
  match extractJsonSpan generatedText with
  | some span =>
    match parseJsonObject span with
    | some obj => candidateOfObj obj
    | none => candidateOfOutput (parsePlainTextOutput generatedText)
  | none => candidateOfOutput (parsePlainTextOutput generatedText)

/-- The parse-and-validate section of callFineTunedLLM from
src/services/llm-models.ts, for a generated text received as a string: an
error value models the thrown parse-failure exception. -/
def callFineTunedLLM (userInput generatedText : String) :
    Except String LLMCandidate :=
  validateOutput (parsedCandidate userInput generatedText)

/-- Whether callFineTunedLLM reaches line-oriented parsing on this
generated text: no embedded span was found, or its JSON parse failed. -/
def usedPlainTextPath (generatedText : String) : Bool :=
  match extractJsonSpan generatedText with
  | none => true
  | some span => (parseJsonObject span).isNone

/-- Canonical JSON rendering of one string-valued member. -/
def renderField (k v : String) : List Char :=
  '"' :: k.data ++ '"' :: ':' :: '"' :: v.data ++ ['"']

/-- The member list of the canonical JSON rendering of a five-field
record, in the field order of the LLMOutput interface. -/
def renderInner (o : LLMOutput) : List Char :=
  joinWithChar ','
    [renderField "department" o.department,
     renderField "location" o.location,
     renderField "severity" o.severity,
     renderField "description" o.description,
     renderField "summary" o.summary]

/-- The canonical compact JSON rendering of a five-field record: a text
that is exactly one JSON object holding the five fields as strings. -/
def renderLLMOutput (o : LLMOutput) : String :=
  ⟨'\x7b' :: renderInner o ++ ['\x7d']⟩

/-- A string that needs no JSON escaping: it contains no quote and no
backslash, so its rendering round-trips through the string parser. -/
def cleanString (s : String) : Bool :=
  s.data.all (fun c => !(c = '"') && !(c = '\\'))

/-- Result shape of the transcription endpoints in
src/services/whisper-local.ts. -/
structure LocalTranscriptionResult where
  text : String
  success : Bool
  error : Option String
deriving DecidableEq, Repr

/-- Result shape of the translation endpoint in
src/services/whisper-local.ts. -/
structure TranslationResult where
  translated_text : String
  original_text : String
  success : Bool
  error : Option String
deriving DecidableEq, Repr

/-- Result shape of the local grievance server client. -/
structure GrievanceResult where
  text : String
  generated_text : String
  success : Bool
  error : Option String
  model_used : Option String
deriving DecidableEq, Repr

/-- Outcome of one fetch call as observed by a client function: the fetch
rejected (network error), the response was non-2xx, the response body did
not decode as JSON, or a decoded body of the given type came back. For the
thrown cases the payload is the message of the thrown value when it was an
Error object, and none when something other than an Error was thrown. -/
inductive FetchOutcome (β : Type) where
  | netError (msg : Option String)
  | notOk (status : Nat)
  | badJson (msg : Option String)
  | ok (body : β)
deriving DecidableEq, Repr

/-- The catch-block message selection shared by the clients: the message of
a thrown Error, and the fixed fallback text otherwise. -/
def errMsg (m : Option String) : String := m.getD "Unknown error"

/-- transcribeAudioLocal from src/services/whisper-local.ts, as a function
of the fetch outcome for the audio blob it sent: every failure is caught
and converted into a result object with success false. -/
def transcribeAudioLocal (outcome : FetchOutcome LocalTranscriptionResult) :
    LocalTranscriptionResult :=
  match outcome with
  | FetchOutcome.ok body => body
  | FetchOutcome.netError m =>
    { text := "", success := false, error := some (errMsg m) }
  | FetchOutcome.notOk status =>
    { text := "", success := false,
      error := some ("Server error: " ++ toString status) }
  | FetchOutcome.badJson m =>
    { text := "", success := false, error := some (errMsg m) }

/-- translateToEnglishLocal from src/services/whisper-local.ts, as a
function of the input text and the fetch outcome: every failure is caught
and converted into a result with success false, an empty translation and
the untouched input as original text. -/
def translateToEnglishLocal (text : String)
    (outcome : FetchOutcome TranslationResult) : TranslationResult :=
  match outcome with
  | FetchOutcome.ok body => body
  | FetchOutcome.netError m =>
    { translated_text := "", original_text := text, success := false,
      error := some (errMsg m) }
  | FetchOutcome.notOk status =>
    { translated_text := "", original_text := text, success := false,
      error := some ("Server error: " ++ toString status) }
  | FetchOutcome.badJson m =>
    { translated_text := "", original_text := text, success := false,
      error := some (errMsg m) }

/-- categorizeGrievanceLocal from the local grievance service client, as a
function of the fetch outcome: every failure is caught and converted into
a result with success false and empty text fields. -/
def categorizeGrievanceLocal (outcome : FetchOutcome GrievanceResult) :
    GrievanceResult :=
  match outcome with
  | FetchOutcome.ok body => body
  | FetchOutcome.netError m =>
    { text := "", generated_text := "", success := false,
      error := some (errMsg m), model_used := none }
  | FetchOutcome.notOk status =>
    { text := "", generated_text := "", success := false,
      error := some ("Server error: " ++ toString status), model_used := none }
  | FetchOutcome.badJson m =>
    { text := "", generated_text := "", success := false,
      error := some (errMsg m), model_used := none }

/-- The working-text selection of handleTranscribe in
src/components/ComplaintForm.tsx: the final text starts as the transcribed
text and is replaced by the translation only when the translation call
reports success with a truthy (non-empty) translated text. -/
def chooseFinalText (transcribedText : String) (r : TranslationResult) :
    String :=
  if r.success = true ∧ ¬ r.translated_text = "" then r.translated_text
  else transcribedText

end Grievance

namespace Grievance

/-! ## General lemmas about the normalizer -/

theorem jsOr_ne_empty (a b : String) (hb : ¬ b = "") : ¬ jsOr a b = "" := by
  unfold jsOr
  split_ifs with h
  · exact hb
  · exact h

theorem mem_validDepartments_ne_empty (s : String)
    (h : s ∈ validDepartments) : ¬ s = "" := by
  simp only [validDepartments, List.mem_cons, List.mem_singleton,
    List.not_mem_nil, or_false] at h
  rcases h with rfl | rfl | rfl <;> decide

theorem mem_validSeverities_ne_empty (s : String)
    (h : s ∈ validSeverities) : ¬ s = "" := by
  simp only [validSeverities, List.mem_cons, List.mem_singleton,
    List.not_mem_nil, or_false] at h
  rcases h with rfl | rfl | rfl | rfl <;> decide

theorem applyKeyValue_department_mem (o : LLMOutput) (k v : String)
    (h : o.department ∈ validDepartments) :
    (applyKeyValue o k v).department ∈ validDepartments := by
  simp only [applyKeyValue]
  split_ifs <;> simp_all [validDepartments]

theorem applyKeyValue_severity_mem (o : LLMOutput) (k v : String)
    (h : o.severity ∈ validSeverities) :
    (applyKeyValue o k v).severity ∈ validSeverities := by
  simp only [applyKeyValue]
  split_ifs <;> simp_all [validSeverities]

theorem processLine_department_mem (o : LLMOutput) (line : List Char)
    (h : o.department ∈ validDepartments) :
    (processLine o line).department ∈ validDepartments := by
  unfold processLine
  rcases hsp : splitOnChar ':' line with _ | ⟨k, vp⟩
  · exact h
  · simp only []
    split_ifs
    · exact h
    · exact applyKeyValue_department_mem _ _ _ h

theorem processLine_severity_mem (o : LLMOutput) (line : List Char)
    (h : o.severity ∈ validSeverities) :
    (processLine o line).severity ∈ validSeverities := by
  unfold processLine
  rcases hsp : splitOnChar ':' line with _ | ⟨k, vp⟩
  · exact h
  · simp only []
    split_ifs
    · exact h
    · exact applyKeyValue_severity_mem _ _ _ h

theorem foldl_department_mem (lines : List (List Char)) (o : LLMOutput)
    (h : o.department ∈ validDepartments) :
    (lines.foldl processLine o).department ∈ validDepartments := by
  induction lines generalizing o with
  | nil => exact h
  | cons l ls ih => exact ih _ (processLine_department_mem _ _ h)

theorem foldl_severity_mem (lines : List (List Char)) (o : LLMOutput)
    (h : o.severity ∈ validSeverities) :
    (lines.foldl processLine o).severity ∈ validSeverities := by
  induction lines generalizing o with
  | nil => exact h
  | cons l ls ih => exact ih _ (processLine_severity_mem _ _ h)

theorem parsePlainTextOutput_department_mem (text : String) :
    (parsePlainTextOutput text).department ∈ validDepartments := by
  unfold parsePlainTextOutput fixSummary fixDescription
  split_ifs <;>
    exact foldl_department_mem _ _ (by decide)

theorem parsePlainTextOutput_severity_mem (text : String) :
    (parsePlainTextOutput text).severity ∈ validSeverities := by
  unfold parsePlainTextOutput fixSummary fixDescription
  split_ifs <;>
    exact foldl_severity_mem _ _ (by decide)

theorem parsePlainTextOutput_description_ne_empty (text : String) :
    ¬ (parsePlainTextOutput text).description = "" := by
  unfold parsePlainTextOutput fixSummary fixDescription
  split_ifs with h1 h2 h3 <;>
    first
      | exact jsOr_ne_empty _ _ (by decide)
      | assumption

theorem parsePlainTextOutput_summary_ne_empty (text : String) :
    ¬ (parsePlainTextOutput text).summary = "" := by
  unfold parsePlainTextOutput fixSummary fixDescription
  split_ifs with h1 h2 h3 <;>
    first
      | exact jsOr_ne_empty _ _ (by decide)
      | assumption

theorem validateOutput_eq_ok (c : LLMCandidate)
    (h : (truthyOpt c.department && truthyOpt c.severity &&
          truthyOpt c.description && truthyOpt c.summary) = true) :
    validateOutput c = Except.ok c := by
  unfold validateOutput
  rw [if_pos h]

theorem candidateOfOutput_truthy (o : LLMOutput)
    (hd : ¬ o.department = "") (hs : ¬ o.severity = "")
    (hde : ¬ o.description = "") (hsu : ¬ o.summary = "") :
    (truthyOpt (candidateOfOutput o).department &&
     truthyOpt (candidateOfOutput o).severity &&
     truthyOpt (candidateOfOutput o).description &&
     truthyOpt (candidateOfOutput o).summary) = true := by
  simp [candidateOfOutput, truthyOpt, hd, hs, hde, hsu]

theorem parsedCandidate_plain (userInput generatedText : String)
    (h : usedPlainTextPath generatedText = true) :
    parsedCandidate userInput generatedText =
      candidateOfOutput (parsePlainTextOutput generatedText) := by
  unfold parsedCandidate
  unfold usedPlainTextPath at h
  rcases hspan : extractJsonSpan generatedText with _ | span
  · simp [hspan]
  · rw [hspan] at h
    simp only [Option.isNone_iff_eq_none] at h
    simp [hspan, h]

theorem parsedCandidate_json (userInput generatedText span : String)
    (obj : List (String × String))
    (hspan : extractJsonSpan generatedText = some span)
    (hobj : parseJsonObject span = some obj) :
    parsedCandidate userInput generatedText = candidateOfObj obj := by
  unfold parsedCandidate
  simp [hspan, hobj]

theorem callFineTunedLLM_plainPath (userInput generatedText : String)
    (h : usedPlainTextPath generatedText = true) :
    callFineTunedLLM userInput generatedText =
      Except.ok (candidateOfOutput (parsePlainTextOutput generatedText)) := by
  unfold callFineTunedLLM
  rw [parsedCandidate_plain userInput generatedText h]
  exact validateOutput_eq_ok _ (candidateOfOutput_truthy _
    (mem_validDepartments_ne_empty _ (parsePlainTextOutput_department_mem _))
    (mem_validSeverities_ne_empty _ (parsePlainTextOutput_severity_mem _))
    (parsePlainTextOutput_description_ne_empty _)
    (parsePlainTextOutput_summary_ne_empty _))

/-! ## Claim C1: field-presence and enum invariant of normalization -/

/-- C1, counterexample. The claim asserts that every normalized record has
department and severity drawn from their enumerated values and a non-null
location. On a generated text whose embedded JSON object carries arbitrary
strings and no location key, callFineTunedLLM returns the object as-is:
department is the non-enum string foo, severity the non-enum string urgent,
and location is absent (undefined). -/
theorem C1_enum_invariant_counterexample :
    callFineTunedLLM "paani nahi aa raha"
        "\x7b\"department\":\"foo\",\"severity\":\"urgent\",\"description\":\"d\",\"summary\":\"s\"\x7d" =
      Except.ok
        { department := some "foo", location := none,
          severity := some "urgent", description := some "d",
          summary := some "s" } ∧
    ¬ "foo" ∈ validDepartments ∧ ¬ "urgent" ∈ validSeverities := by
  decide

/-- C1, amended. The invariant does hold on the line-oriented path: whenever
callFineTunedLLM does not obtain a parsed embedded JSON object, the record
comes from parsePlainTextOutput and has department in the three-value enum,
severity in the four-value enum, a non-empty description and summary, and a
present (non-undefined) location string. On the embedded-JSON path the
fields are passed through unvalidated. -/
theorem C1_enum_invariant_amended (userInput generatedText : String)
    (h : usedPlainTextPath generatedText = true) :
    callFineTunedLLM userInput generatedText =
      Except.ok (candidateOfOutput (parsePlainTextOutput generatedText)) ∧
    (parsePlainTextOutput generatedText).department ∈ validDepartments ∧
    (parsePlainTextOutput generatedText).severity ∈ validSeverities ∧
    ¬ (parsePlainTextOutput generatedText).description = "" ∧
    ¬ (parsePlainTextOutput generatedText).summary = "" ∧
    (candidateOfOutput (parsePlainTextOutput generatedText)).location =
      some (parsePlainTextOutput generatedText).location :=
  ⟨callFineTunedLLM_plainPath _ _ h, parsePlainTextOutput_department_mem _,
   parsePlainTextOutput_severity_mem _,
   parsePlainTextOutput_description_ne_empty _,
   parsePlainTextOutput_summary_ne_empty _, rfl⟩

/-- Witness for the amended C1 at a concrete plain-text output. -/
theorem C1_enum_invariant_amended_witness :
    callFineTunedLLM "inp" "Department: water\nDescription: leak in pipe" =
      Except.ok (candidateOfOutput
        (parsePlainTextOutput "Department: water\nDescription: leak in pipe")) ∧
    (parsePlainTextOutput "Department: water\nDescription: leak in pipe").department ∈
      validDepartments ∧
    (parsePlainTextOutput "Department: water\nDescription: leak in pipe").severity ∈
      validSeverities ∧
    ¬ (parsePlainTextOutput "Department: water\nDescription: leak in pipe").description = "" ∧
    ¬ (parsePlainTextOutput "Department: water\nDescription: leak in pipe").summary = "" ∧
    (candidateOfOutput
        (parsePlainTextOutput "Department: water\nDescription: leak in pipe")).location =
      some (parsePlainTextOutput "Department: water\nDescription: leak in pipe").location :=
  C1_enum_invariant_amended "inp" "Department: water\nDescription: leak in pipe" (by decide)

/-! ## Claim C2: severity normalization -/

/-- C2, counterexample. The claim says the raw severity value Low (wrong
case) normalizes to medium. The source lowercases the value before the
membership test, so Low normalizes to low, not medium. -/
theorem C2_severity_counterexample :
    (parsePlainTextOutput "Severity: Low").severity = "low" ∧
    ¬ (parsePlainTextOutput "Severity: Low").severity = "medium" := by
  decide

/-- C2, amended. The severity value is lowercased and then accepted exactly
when the lowercased form is one of the four enum strings, so the accept is
case-insensitive: Low normalizes to low, urgent (not a member) leaves the
default medium, and critical normalizes to critical. -/
theorem C2_severity_amended :
    (∀ (o : LLMOutput) (value : String), ¬ value = "" →
      (jsToLower value ∈ validSeverities →
        (applyKeyValue o "severity" value).severity = jsToLower value) ∧
      (¬ jsToLower value ∈ validSeverities →
        (applyKeyValue o "severity" value).severity = o.severity)) ∧
    (parsePlainTextOutput "Severity: Low").severity = "low" ∧
    (parsePlainTextOutput "Severity: urgent").severity = "medium" ∧
    (parsePlainTextOutput "Severity: critical").severity = "critical" := by
  refine ⟨?_, by decide, by decide, by decide⟩
  intro o value hv
  have h1 : jsIncludes "severity" "department" = false := by decide
  have h2 : jsIncludes "severity" "severity" = true := by decide
  constructor
  · intro hin
    simp only [applyKeyValue, h1, h2]
    simp [hin]
  · intro hout
    simp only [applyKeyValue, h1, h2]
    simp [hout]

/-- Witness for the amended C2 at a concrete record and value. -/
theorem C2_severity_amended_witness :
    (applyKeyValue initialOutput "severity" "Low").severity = "low" := by
  have h := ((C2_severity_amended.1 initialOutput "Low" (by decide)).1 (by decide))
  exact h.trans (by decide)

/-! ## Claim C3: description and summary fallback -/

/-- C3, counterexample. The claim says that with both description and
summary empty the normalized description equals the original input text
sent to categorization. The source substitutes the fixed placeholder
instead; the user input never reaches the parser. -/
theorem C3_description_fallback_counterexample :
    callFineTunedLLM "paani ka problem hai" "Location: Andheri" =
      Except.ok
        { department := some "roads_and_traffic",
          location := some "Andheri", severity := some "medium",
          description := some "No description provided",
          summary := some "No description provided" } ∧
    ¬ ("No description provided" : String) = "paani ka problem hai" := by
  decide

/-- C3, amended. With empty description and non-empty summary the
normalized description equals the summary; with both empty it equals the
fixed placeholder text, independent of the input sent to categorization. -/
theorem C3_description_fallback_amended (text : String) :
    (((linesOf text).foldl processLine initialOutput).description = "" →
      ¬ ((linesOf text).foldl processLine initialOutput).summary = "" →
      (parsePlainTextOutput text).description =
        ((linesOf text).foldl processLine initialOutput).summary) ∧
    (((linesOf text).foldl processLine initialOutput).description = "" →
      ((linesOf text).foldl processLine initialOutput).summary = "" →
      (parsePlainTextOutput text).description = "No description provided") := by
  constructor
  · intro h1 h2
    unfold parsePlainTextOutput fixSummary fixDescription jsOr
    split_ifs
    all_goals simp_all
  · intro h1 h2
    unfold parsePlainTextOutput fixSummary fixDescription jsOr
    split_ifs
    all_goals simp_all

/-- Witness for the amended C3 on both branches of the fallback chain. -/
theorem C3_description_fallback_amended_witness :
    (parsePlainTextOutput "Summary: pipe burst in Andheri").description =
      "pipe burst in Andheri" ∧
    (parsePlainTextOutput "Location: Andheri").description =
      "No description provided" :=
  ⟨((C3_description_fallback_amended "Summary: pipe burst in Andheri").1
      (by decide) (by decide)).trans (by decide),
   (C3_description_fallback_amended "Location: Andheri").2
      (by decide) (by decide)⟩

/-! ## Claim C4: department keyword mapping -/

/-- C4, counterexample. The claim says every raw department value that
contains water maps to water_supply. The source checks road and traffic
first, so the value water on the road maps to roads_and_traffic. -/
theorem C4_department_mapping_counterexample :
    (parsePlainTextOutput "Department: water on the road").department =
      "roads_and_traffic" ∧
    ¬ (parsePlainTextOutput "Department: water on the road").department =
      "water_supply" := by
  decide

/-- C4, amended. The keyword checks on the lowercased department value are
ordered first-match-wins: road or traffic first, then water, then waste or
garbage; a value matching no keyword leaves the department unchanged, so a
record that never matched keeps the initial default roads_and_traffic, and
an empty value skips the line, likewise keeping the default. -/
theorem C4_department_mapping_amended :
    (∀ (o : LLMOutput) (value : String), ¬ value = "" →
      ((jsIncludes (jsToLower value) "road" = true ∨
        jsIncludes (jsToLower value) "traffic" = true) →
        (applyKeyValue o "department" value).department = "roads_and_traffic") ∧
      (jsIncludes (jsToLower value) "road" = false →
        jsIncludes (jsToLower value) "traffic" = false →
        jsIncludes (jsToLower value) "water" = true →
        (applyKeyValue o "department" value).department = "water_supply") ∧
      (jsIncludes (jsToLower value) "road" = false →
        jsIncludes (jsToLower value) "traffic" = false →
        jsIncludes (jsToLower value) "water" = false →
        (jsIncludes (jsToLower value) "waste" = true ∨
         jsIncludes (jsToLower value) "garbage" = true) →
        (applyKeyValue o "department" value).department =
          "solid_waste_management") ∧
      (jsIncludes (jsToLower value) "road" = false →
        jsIncludes (jsToLower value) "traffic" = false →
        jsIncludes (jsToLower value) "water" = false →
        jsIncludes (jsToLower value) "waste" = false →
        jsIncludes (jsToLower value) "garbage" = false →
        (applyKeyValue o "department" value).department = o.department)) ∧
    (parsePlainTextOutput "Department: water").department = "water_supply" ∧
    (parsePlainTextOutput "Department: garbage dump").department =
      "solid_waste_management" ∧
    (parsePlainTextOutput "Department: flyover").department =
      "roads_and_traffic" ∧
    (parsePlainTextOutput "Department:").department = "roads_and_traffic" := by
  refine ⟨?_, by decide, by decide, by decide, by decide⟩
  intro o value hv
  have h1 : jsIncludes "department" "department" = true := by decide
  refine ⟨?_, ?_, ?_, ?_⟩
  · rintro (hr | ht)
    · simp only [applyKeyValue, h1]
      simp [hr]
    · simp only [applyKeyValue, h1]
      simp [ht]
  · intro hr ht hw
    simp only [applyKeyValue, h1]
    simp [hr, ht, hw]
  · rintro hr ht hw (h5 | h6)
    · simp only [applyKeyValue, h1]
      simp [hr, ht, hw, h5]
    · simp only [applyKeyValue, h1]
      simp [hr, ht, hw, h6]
  · intro hr ht hw h5 h6
    simp only [applyKeyValue, h1]
    simp [hr, ht, hw, h5, h6]

/-- Witness for the amended C4 at a concrete record and value. -/
theorem C4_department_mapping_amended_witness :
    (applyKeyValue initialOutput "department" "road with potholes").department =
      "roads_and_traffic" :=
  (C4_department_mapping_amended.1 initialOutput "road with potholes"
    (by decide)).1 (Or.inl (by decide))

/-! ## Claim C6: fatal parse failure condition -/

/-- C6, counterexample. The claim says an invalid enum value in department
or severity triggers a fatal parse failure. The validation only tests
emptiness, so a JSON object with non-enum department sewage and severity
asap is returned as a success. -/
theorem C6_parse_failure_counterexample :
    callFineTunedLLM "u"
        "\x7b\"department\":\"sewage\",\"severity\":\"asap\",\"location\":\"x\",\"description\":\"overflow\",\"summary\":\"ovf\"\x7d" =
      Except.ok
        { department := some "sewage", location := some "x",
          severity := some "asap", description := some "overflow",
          summary := some "ovf" } ∧
    ¬ "sewage" ∈ validDepartments ∧ ¬ "asap" ∈ validSeverities := by
  decide

/-- C6, amended. Normalization signals the fatal parse failure exactly when
department, severity, description or summary is absent or empty after
parsing; enum validity is not part of the check. Conversely, the
line-oriented path always repairs its fields by defaulting and never
fails. -/
theorem C6_parse_failure_amended (userInput generatedText : String) :
    (callFineTunedLLM userInput generatedText =
        Except.error "Invalid LLM output structure - missing required fields" ↔
      (truthyOpt (parsedCandidate userInput generatedText).department &&
       truthyOpt (parsedCandidate userInput generatedText).severity &&
       truthyOpt (parsedCandidate userInput generatedText).description &&
       truthyOpt (parsedCandidate userInput generatedText).summary) = false) ∧
    (usedPlainTextPath generatedText = true →
      callFineTunedLLM userInput generatedText =
        Except.ok (candidateOfOutput (parsePlainTextOutput generatedText))) := by
  constructor
  · cases hc : (truthyOpt (parsedCandidate userInput generatedText).department &&
       truthyOpt (parsedCandidate userInput generatedText).severity &&
       truthyOpt (parsedCandidate userInput generatedText).description &&
       truthyOpt (parsedCandidate userInput generatedText).summary) <;>
      simp [callFineTunedLLM, validateOutput, hc]
  · exact callFineTunedLLM_plainPath userInput generatedText

/-- Witness for the amended C6: a failing JSON candidate with a missing
description, and a never-failing plain-text candidate. -/
theorem C6_parse_failure_amended_witness :
    callFineTunedLLM "x"
        " \x7b \"department\" : \"water_supply\" , \"severity\" : \"low\" \x7d tail" =
      Except.error "Invalid LLM output structure - missing required fields" ∧
    callFineTunedLLM "x" "Severity: high" =
      Except.ok (candidateOfOutput (parsePlainTextOutput "Severity: high")) :=
  ⟨(C6_parse_failure_amended "x"
      " \x7b \"department\" : \"water_supply\" , \"severity\" : \"low\" \x7d tail").1.mpr
      (by decide),
   (C6_parse_failure_amended "x" "Severity: high").2 (by decide)⟩

/-! ## Claim C7: translation fallback -/

/-- C7. When the translation stage fails — the service reports
success false, returns an empty translated text, or the call errors (all
caught outcomes of translateToEnglishLocal have success false) — the
working text of handleTranscribe stays the pre-translation transcribed
text, and in particular a failed translation never makes the working text
empty when the transcription was non-empty. -/
theorem C7_translation_fallback (t : String) (r : TranslationResult)
    (m : Option String) (status : Nat) :
    (r.success = false ∨ r.translated_text = "" → chooseFinalText t r = t) ∧
    (r.success = false ∨ r.translated_text = "" → ¬ t = "" →
      ¬ chooseFinalText t r = "") ∧
    chooseFinalText t (translateToEnglishLocal t (FetchOutcome.netError m)) = t ∧
    chooseFinalText t (translateToEnglishLocal t (FetchOutcome.notOk status)) = t ∧
    chooseFinalText t (translateToEnglishLocal t (FetchOutcome.badJson m)) = t := by
  have hfail : ∀ r2 : TranslationResult,
      r2.success = false ∨ r2.translated_text = "" → chooseFinalText t r2 = t := by
    intro r2 h
    unfold chooseFinalText
    rcases h with h | h
    · rw [if_neg]
      rintro ⟨h1, _⟩
      rw [h] at h1
      exact Bool.false_ne_true h1
    · rw [if_neg]
      rintro ⟨_, h2⟩
      exact h2 h
  refine ⟨hfail r, ?_, hfail _ (Or.inl rfl), hfail _ (Or.inl rfl),
    hfail _ (Or.inl rfl)⟩
  intro h ht
  rw [hfail r h]
  exact ht

/-- Witness for C7 at a concrete transcription and failed translation. -/
theorem C7_translation_fallback_witness :
    chooseFinalText "naala band hai"
      { translated_text := "", original_text := "naala band hai",
        success := false, error := some "err" } = "naala band hai" ∧
    ¬ chooseFinalText "naala band hai"
      { translated_text := "", original_text := "naala band hai",
        success := false, error := some "err" } = "" :=
  ⟨(C7_translation_fallback "naala band hai"
      { translated_text := "", original_text := "naala band hai",
        success := false, error := some "err" } none 0).1 (Or.inl rfl),
   (C7_translation_fallback "naala band hai"
      { translated_text := "", original_text := "naala band hai",
        success := false, error := some "err" } none 0).2.1 (Or.inl rfl)
      (by decide)⟩

/-! ## Claim C9: end-to-end line-oriented scenario -/

/-- C9. On the four-line scenario text with no JSON present, line-oriented
normalization produces exactly the expected record: department maps from
water to water_supply, severity low is accepted, the empty-valued Location
line is skipped leaving location empty, and the description falls back to
the summary. callFineTunedLLM wraps that record as a success. -/
theorem C9_end_to_end_scenario :
    parsePlainTextOutput
        "Department: water\nSeverity: low\nLocation:\nSummary: Naala band ho gaya hai, gutter se paani ghar ke andar aa raha hai" =
      { department := "water_supply", location := "", severity := "low",
        description := "Naala band ho gaya hai, gutter se paani ghar ke andar aa raha hai",
        summary := "Naala band ho gaya hai, gutter se paani ghar ke andar aa raha hai" } ∧
    callFineTunedLLM ""
        "Department: water\nSeverity: low\nLocation:\nSummary: Naala band ho gaya hai, gutter se paani ghar ke andar aa raha hai" =
      Except.ok
        { department := some "water_supply", location := some "",
          severity := some "low",
          description := some "Naala band ho gaya hai, gutter se paani ghar ke andar aa raha hai",
          summary := some "Naala band ho gaya hai, gutter se paani ghar ke andar aa raha hai" } := by
  decide

/-! ## Claim C10: totality of the service clients -/

/-- C10. The three client functions are total: modelled over every fetch
outcome, each error outcome (network rejection, non-2xx response, JSON
decode failure) is converted into a returned result object with success
false and a defined error string, and the translation client echoes the
exact input text as original_text. -/
theorem C10_clients_total (text : String) (m : Option String) (status : Nat) :
    (transcribeAudioLocal (FetchOutcome.netError m)).success = false ∧
    (transcribeAudioLocal (FetchOutcome.netError m)).error = some (errMsg m) ∧
    (transcribeAudioLocal (FetchOutcome.notOk status)).success = false ∧
    (transcribeAudioLocal (FetchOutcome.notOk status)).error =
      some ("Server error: " ++ toString status) ∧
    (transcribeAudioLocal (FetchOutcome.badJson m)).success = false ∧
    (transcribeAudioLocal (FetchOutcome.badJson m)).error = some (errMsg m) ∧
    (translateToEnglishLocal text (FetchOutcome.netError m)).success = false ∧
    (translateToEnglishLocal text (FetchOutcome.netError m)).error =
      some (errMsg m) ∧
    (translateToEnglishLocal text (FetchOutcome.netError m)).original_text =
      text ∧
    (translateToEnglishLocal text (FetchOutcome.notOk status)).success = false ∧
    (translateToEnglishLocal text (FetchOutcome.notOk status)).error =
      some ("Server error: " ++ toString status) ∧
    (translateToEnglishLocal text (FetchOutcome.notOk status)).original_text =
      text ∧
    (translateToEnglishLocal text (FetchOutcome.badJson m)).success = false ∧
    (translateToEnglishLocal text (FetchOutcome.badJson m)).error =
      some (errMsg m) ∧
    (translateToEnglishLocal text (FetchOutcome.badJson m)).original_text =
      text ∧
    (categorizeGrievanceLocal (FetchOutcome.netError m)).success = false ∧
    (categorizeGrievanceLocal (FetchOutcome.netError m)).error =
      some (errMsg m) ∧
    (categorizeGrievanceLocal (FetchOutcome.notOk status)).success = false ∧
    (categorizeGrievanceLocal (FetchOutcome.notOk status)).error =
      some ("Server error: " ++ toString status) ∧
    (categorizeGrievanceLocal (FetchOutcome.badJson m)).success = false ∧
    (categorizeGrievanceLocal (FetchOutcome.badJson m)).error =
      some (errMsg m) := by
  simp [transcribeAudioLocal, translateToEnglishLocal, categorizeGrievanceLocal]

/-! ## Claim C5: embedded-JSON precedence and span choice -/

theorem dropWhile_append_of_all (p : Char → Bool) (xs ys : List Char)
    (h : ∀ x ∈ xs, p x = true) :
    (xs ++ ys).dropWhile p = ys.dropWhile p := by
  induction xs with
  | nil => rfl
  | cons a l ih =>
    simp only [List.cons_append, List.dropWhile_cons,
      h a (List.mem_cons_self a l), if_true]
    exact ih (fun x hx => h x (List.mem_cons_of_mem a hx))

theorem dropWhile_cons_of_neg (p : Char → Bool) (c : Char) (cs : List Char)
    (h : p c = false) : (c :: cs).dropWhile p = c :: cs := by
  simp [List.dropWhile_cons, h]

theorem extractJsonSpan_first_to_last (pre mid post : String)
    (hpre : ∀ c ∈ pre.data, ¬ c = '\x7b')
    (hpost : ∀ c ∈ post.data, ¬ c = '\x7d') :
    extractJsonSpan (pre ++ "\x7b" ++ mid ++ "\x7d" ++ post) =
      some ("\x7b" ++ mid ++ "\x7d") := by
  have hdata : (pre ++ "\x7b" ++ mid ++ "\x7d" ++ post).data =
      pre.data ++ '\x7b' :: (mid.data ++ '\x7d' :: post.data) := by
    simp [String.data_append]
  have hopen : (pre ++ "\x7b" ++ mid ++ "\x7d" ++ post).data.dropWhile
      (fun c => !(c = '\x7b')) = '\x7b' :: (mid.data ++ '\x7d' :: post.data) := by
    rw [hdata,
      dropWhile_append_of_all _ _ _ (fun x hx => by simp [hpre x hx]),
      dropWhile_cons_of_neg _ _ _ (by simp)]
  have hrev : ('\x7b' :: (mid.data ++ '\x7d' :: post.data)).reverse =
      post.data.reverse ++ '\x7d' :: (mid.data.reverse ++ ['\x7b']) := by
    simp
  have hclose : spanToLastClose ('\x7b' :: (mid.data ++ '\x7d' :: post.data)) =
      '\x7b' :: (mid.data ++ ['\x7d']) := by
    unfold spanToLastClose
    rw [hrev,
      dropWhile_append_of_all _ _ _
        (fun x hx => by
          simp only [List.mem_reverse] at hx
          simp [hpost x hx]),
      dropWhile_cons_of_neg _ _ _ (by simp)]
    simp
  have hfinal : ('\x7b' :: (mid.data ++ ['\x7d'])) =
      ("\x7b" ++ mid ++ "\x7d").data := by
    simp [String.data_append]
  unfold extractJsonSpan
  rw [hopen]
  simp only [hclose]
  rw [if_neg (by simp)]
  rw [hfinal]

/-- C5, counterexample. The claim says the JSON candidate is the first
brace-delimited span of the text. On a text consisting of a complete valid
JSON object followed by one stray closing brace, the first such span is the
valid object (severity high), yet normalization returns severity medium:
the greedy regex grabs everything up to the final brace, that candidate
fails to parse, and line-oriented parsing of the whole text takes over. -/
theorem C5_json_precedence_counterexample :
    parseJsonObject
        "\x7b\"department\":\"water_supply\",\"severity\":\"high\",\"location\":\"\",\"description\":\"d\",\"summary\":\"s\"\x7d" =
      some [("department", "water_supply"), ("severity", "high"),
        ("location", ""), ("description", "d"), ("summary", "s")] ∧
    callFineTunedLLM "inp"
        ("\x7b\"department\":\"water_supply\",\"severity\":\"high\",\"location\":\"\",\"description\":\"d\",\"summary\":\"s\"\x7d" ++ "\x7d") =
      Except.ok
        { department := some "water_supply", location := some "",
          severity := some "medium",
          description := some "No description provided",
          summary := some "No description provided" } ∧
    ¬ (some "medium" : Option String) = some "high" := by
  decide

/-- C5, amended. The candidate span is greedy: on a text written as
pre-brace noise, an opening brace, a middle, a closing brace and
brace-free tail noise, the extracted span runs from the first opening
brace to the last closing brace of the whole text (not to the first
balancing brace). When the extracted span parses as a JSON object its
values are the ones normalized, in preference to any prose; line-oriented
parsing is reached exactly on the texts where no span exists or the span
fails to parse. -/
theorem C5_json_precedence_amended :
    (∀ (pre mid post : String), (∀ c ∈ pre.data, ¬ c = '\x7b') →
      (∀ c ∈ post.data, ¬ c = '\x7d') →
      extractJsonSpan (pre ++ "\x7b" ++ mid ++ "\x7d" ++ post) =
        some ("\x7b" ++ mid ++ "\x7d")) ∧
    (∀ (userInput generatedText span : String) (obj : List (String × String)),
      extractJsonSpan generatedText = some span →
      parseJsonObject span = some obj →
      callFineTunedLLM userInput generatedText =
        validateOutput (candidateOfObj obj)) ∧
    (∀ (userInput generatedText : String),
      usedPlainTextPath generatedText = true →
      callFineTunedLLM userInput generatedText =
        validateOutput (candidateOfOutput (parsePlainTextOutput generatedText))) := by
  refine ⟨extractJsonSpan_first_to_last, ?_, ?_⟩
  · intro userInput generatedText span obj hspan hobj
    unfold callFineTunedLLM
    rw [parsedCandidate_json userInput generatedText span obj hspan hobj]
  · intro userInput generatedText h
    unfold callFineTunedLLM
    rw [parsedCandidate_plain userInput generatedText h]

/-- Witness for the amended C5 at concrete texts: a span extraction with
noise on both sides, a JSON-using normalization, and a plain-text
normalization. -/
theorem C5_json_precedence_amended_witness :
    extractJsonSpan ("see below: " ++ "\x7b" ++ "\"severity\":\"low\"" ++ "\x7d" ++ " thanks") =
      some ("\x7b" ++ "\"severity\":\"low\"" ++ "\x7d") ∧
    callFineTunedLLM "u" "Severity: high before \x7b\"department\":\"water_supply\",\"severity\":\"low\",\"description\":\"d\",\"summary\":\"s\"\x7d" =
      validateOutput (candidateOfObj
        [("department", "water_supply"), ("severity", "low"),
         ("description", "d"), ("summary", "s")]) ∧
    callFineTunedLLM "u" "Severity: high" =
      validateOutput (candidateOfOutput (parsePlainTextOutput "Severity: high")) :=
  ⟨C5_json_precedence_amended.1 "see below: " "\"severity\":\"low\"" " thanks"
      (by decide) (by decide),
   C5_json_precedence_amended.2.1 "u"
      "Severity: high before \x7b\"department\":\"water_supply\",\"severity\":\"low\",\"description\":\"d\",\"summary\":\"s\"\x7d"
      "\x7b\"department\":\"water_supply\",\"severity\":\"low\",\"description\":\"d\",\"summary\":\"s\"\x7d"
      [("department", "water_supply"), ("severity", "low"),
       ("description", "d"), ("summary", "s")]
      (by decide) (by decide),
   C5_json_precedence_amended.2.2 "u" "Severity: high" (by decide)⟩

/-! ## Claim C8: idempotence on an already-valid JSON object -/

theorem skipWs_quote (r : List Char) : skipWs ('"' :: r) = '"' :: r := rfl

theorem skipWs_colon (r : List Char) : skipWs (':' :: r) = ':' :: r := rfl

theorem skipWs_comma (r : List Char) : skipWs (',' :: r) = ',' :: r := rfl

theorem skipWs_close (r : List Char) : skipWs ('\x7d' :: r) = '\x7d' :: r := rfl

theorem skipWs_open (r : List Char) : skipWs ('\x7b' :: r) = '\x7b' :: r := rfl

theorem parseStringBody_clean (v rest : List Char)
    (h : v.all (fun c => !(c = '"') && !(c = '\\')) = true) :
    parseStringBody (v ++ '"' :: rest) = some (v, rest) := by
  induction v with
  | nil =>
    unfold parseStringBody
    simp
  | cons a l ih =>
    simp only [List.all_cons, Bool.and_eq_true] at h
    obtain ⟨⟨ha1, ha2⟩, hl⟩ := h
    have ha1' : ¬ a = '"' := by simpa using ha1
    have ha2' : ¬ a = '\\' := by simpa using ha2
    simp only [List.cons_append]
    unfold parseStringBody
    rw [if_neg ha1', if_neg ha2', ih hl]

/-- One rendered member after its opening quote: the key, the closing
quote of the key, the colon, the opening quote of the value, the value,
its closing quote, and the given continuation. Proof scaffolding for the
round-trip. -/
def memberChars (k v : String) (tail : List Char) : List Char :=
  k.data ++ '"' :: ':' :: '"' :: (v.data ++ '"' :: tail)

theorem parseMembers_comma (n : Nat) (k v : String) (next : List Char)
    (hk : cleanString k = true) (hv : cleanString v = true) :
    parseMembers (n + 1) ('"' :: memberChars k v (',' :: next)) =
      (match parseMembers n (skipWs next) with
       | none => none
       | some (kvs, rest) => some ((k, v) :: kvs, rest)) := by
  have hk1 := parseStringBody_clean k.data
    (':' :: '"' :: (v.data ++ '"' :: ',' :: next)) hk
  have hv1 := parseStringBody_clean v.data (',' :: next) hv
  unfold memberChars
  unfold parseMembers
  simp only [hk1, hv1, skipWs_colon, skipWs_quote, skipWs_comma]
  conv_rhs => rw [← parseMembers.eq_def]
  rfl

theorem parseMembers_last (n : Nat) (k v : String) (r5 : List Char)
    (hk : cleanString k = true) (hv : cleanString v = true) :
    parseMembers (n + 1) ('"' :: memberChars k v ('\x7d' :: r5)) =
      some ([(k, v)], r5) := by
  have hk1 := parseStringBody_clean k.data
    (':' :: '"' :: (v.data ++ '"' :: '\x7d' :: r5)) hk
  have hv1 := parseStringBody_clean v.data ('\x7d' :: r5) hv
  unfold memberChars
  unfold parseMembers
  simp [hk1, hv1, skipWs_colon, skipWs_quote, skipWs_close]

/-- The member region of the canonical rendering, in the right-nested form
the member-step lemmas consume. Proof scaffolding for the round-trip. -/
def renderRest (o : LLMOutput) : List Char :=
  memberChars "department" o.department (',' ::
    '"' :: memberChars "location" o.location (',' ::
      '"' :: memberChars "severity" o.severity (',' ::
        '"' :: memberChars "description" o.description (',' ::
          '"' :: memberChars "summary" o.summary ('\x7d' :: [])))))

theorem renderInner_shape (o : LLMOutput) :
    renderInner o ++ ['\x7d'] = '"' :: renderRest o := by
  simp [renderInner, renderField, joinWithChar, renderRest, memberChars]

theorem renderRest_parse (o : LLMOutput)
    (hcd : cleanString o.department = true) (hcl : cleanString o.location = true)
    (hcs : cleanString o.severity = true)
    (hcde : cleanString o.description = true)
    (hcsu : cleanString o.summary = true) (n : Nat) :
    parseMembers (n + 5) ('"' :: renderRest o) =
      some ([("department", o.department), ("location", o.location),
             ("severity", o.severity), ("description", o.description),
             ("summary", o.summary)], []) := by
  unfold renderRest
  rw [show n + 5 = (n + 4) + 1 from rfl,
    parseMembers_comma (n + 4) "department" o.department _ (by decide) hcd,
    skipWs_quote]
  rw [show n + 4 = (n + 3) + 1 from rfl,
    parseMembers_comma (n + 3) "location" o.location _ (by decide) hcl,
    skipWs_quote]
  rw [show n + 3 = (n + 2) + 1 from rfl,
    parseMembers_comma (n + 2) "severity" o.severity _ (by decide) hcs,
    skipWs_quote]
  rw [show n + 2 = (n + 1) + 1 from rfl,
    parseMembers_comma (n + 1) "description" o.description _ (by decide) hcde,
    skipWs_quote]
  rw [parseMembers_last n "summary" o.summary [] (by decide) hcsu]

theorem extractJsonSpan_render (o : LLMOutput) :
    extractJsonSpan (renderLLMOutput o) = some (renderLLMOutput o) := by
  unfold extractJsonSpan renderLLMOutput spanToLastClose
  simp

theorem parseJsonObject_render (o : LLMOutput)
    (hcd : cleanString o.department = true) (hcl : cleanString o.location = true)
    (hcs : cleanString o.severity = true)
    (hcde : cleanString o.description = true)
    (hcsu : cleanString o.summary = true) :
    parseJsonObject (renderLLMOutput o) =
      some [("department", o.department), ("location", o.location),
            ("severity", o.severity), ("description", o.description),
            ("summary", o.summary)] := by
  show parseObjBody (renderInner o ++ ['\x7d']) =
    some [("department", o.department), ("location", o.location),
          ("severity", o.severity), ("description", o.description),
          ("summary", o.summary)]
  rw [renderInner_shape o]
  show (match parseMembers (('"' :: renderRest o).length + 5)
          ('"' :: renderRest o) with
        | none => none
        | some (kvs, rest) =>
          if (skipWs rest).isEmpty = true then some kvs else none) =
    some [("department", o.department), ("location", o.location),
          ("severity", o.severity), ("description", o.description),
          ("summary", o.summary)]
  rw [renderRest_parse o hcd hcl hcs hcde hcsu (('"' :: renderRest o).length)]
  simp [skipWs]

theorem candidateOfObj_render (o : LLMOutput) :
    candidateOfObj
        [("department", o.department), ("location", o.location),
         ("severity", o.severity), ("description", o.description),
         ("summary", o.summary)] = candidateOfOutput o := by
  simp [candidateOfObj, lookupLast, candidateOfOutput, List.find?]

/-- C8. Normalizing a generated text that is exactly a JSON object carrying
all five fields — department and severity already valid enum values,
description and summary non-empty, every field free of characters that
would need JSON escaping — returns exactly that object: the five field
values pass through unchanged. -/
theorem C8_normalization_idempotent (userInput : String) (o : LLMOutput)
    (hdep : o.department ∈ validDepartments)
    (hsev : o.severity ∈ validSeverities)
    (hdesc : ¬ o.description = "") (hsum : ¬ o.summary = "")
    (hcd : cleanString o.department = true) (hcl : cleanString o.location = true)
    (hcs : cleanString o.severity = true)
    (hcde : cleanString o.description = true)
    (hcsu : cleanString o.summary = true) :
    callFineTunedLLM userInput (renderLLMOutput o) =
      Except.ok (candidateOfOutput o) := by
  unfold callFineTunedLLM
  rw [parsedCandidate_json userInput (renderLLMOutput o) (renderLLMOutput o) _
    (extractJsonSpan_render o) (parseJsonObject_render o hcd hcl hcs hcde hcsu)]
  rw [candidateOfObj_render o]
  exact validateOutput_eq_ok _ (candidateOfOutput_truthy o
    (mem_validDepartments_ne_empty _ hdep)
    (mem_validSeverities_ne_empty _ hsev) hdesc hsum)

/-- Witness for C8 at a concrete already-valid five-field record. -/
theorem C8_normalization_idempotent_witness :
    callFineTunedLLM "inp"
        (renderLLMOutput
          { department := "water_supply", location := "Andheri East",
            severity := "high", description := "Water is leaking on the road.",
            summary := "Water leak" }) =
      Except.ok (candidateOfOutput
        { department := "water_supply", location := "Andheri East",
          severity := "high", description := "Water is leaking on the road.",
          summary := "Water leak" }) :=
  C8_normalization_idempotent "inp"
    { department := "water_supply", location := "Andheri East",
      severity := "high", description := "Water is leaking on the road.",
      summary := "Water leak" }
    (by decide) (by decide) (by decide) (by decide) (by decide) (by decide)
    (by decide) (by decide) (by decide)

end Grievance
